import Mathlib

/-!
# Verification of the DingTalk channel adapter

A shallow embedding of the channel's core logic (`src/channel.ts`, newest
revision): the sender allowlist, the token cache, the interactive-card update
path with terminal-error eviction, the per-card update throttle, the inbound
message merge buffer, and the effect-level inbound pipeline.

Conventions of the embedding:
* JavaScript strings that may be `undefined`/`null` and are only ever tested
  for truthiness are embedded as `String` with `""` standing for the absent
  value (in JS both `undefined` and `""` are falsy, so `a || b` and `if (a)`
  behave identically under this encoding).  Where the source distinguishes
  `undefined` from `""` (`part.text !== undefined`) an `Option String` is used.
* Timestamps (`Date.now()`) are `Nat` milliseconds.
* Timers are embedded as explicit state plus externally scheduled fire events;
  `clearTimeout` removes the corresponding state so a later fire is a no-op.
* Network calls are embedded as oracles (`Nat → Except HttpFailure α` giving
  the outcome of the k-th attempt) and as entries of an effect/call log.
-/

set_option maxHeartbeats 1000000

namespace DingTalk

/-- Models JavaScript `a || b` on strings (empty string is falsy). -/
def jsOr (a b : String) : String := if a = "" then b else a

/-- Models JavaScript `o?.x || ""` for an optional string field. -/
def jsOptStr (o : Option String) : String := o.getD ""

/-- Models JavaScript `Array.prototype.join(sep)`. -/
def jsJoin (sep : String) : List String → String
  | [] => ""
  | [a] => a
  | a :: b :: t => a ++ sep ++ jsJoin sep (b :: t)

/-- Models JavaScript `String.prototype.trim()`: strip leading and trailing
whitespace.  (Defined on the character list rather than through
`String.trim` so that it reduces structurally.) -/
def jsTrim (s : String) : String :=
  ⟨((s.data.dropWhile Char.isWhitespace).reverse.dropWhile Char.isWhitespace).reverse⟩

/-- Models JavaScript `String.prototype.toLowerCase()` (character-list based,
so that it reduces structurally). -/
def jsToLower (s : String) : String := ⟨s.data.map Char.toLower⟩

/-- Models JavaScript `String.prototype.startsWith(pre)` (character-list
based). -/
def jsStartsWith (s pre : String) : Bool := pre.data.isPrefixOf s.data

/-- Drop the first `n` characters of a string (character-list based). -/
def jsDrop (s : String) (n : Nat) : String := ⟨s.data.drop n⟩

/-! ## Authorization helpers (`normalizeAllowFrom`, `isSenderAllowed`) -/

structure NormalizedAllowFrom where
  entries : List String
  entriesLower : List String
  hasWildcard : Bool
  hasEntries : Bool
deriving DecidableEq, Repr

/-- Models `value.replace(/^(dingtalk|dd|ding):/i, '')`: strips a single
leading channel prefix, case-insensitively.  The three alternatives are
mutually exclusive as prefixes, so testing them in any order matches the
regex. -/
def stripChannelPrefix (value : String) : String :=
  let lower := jsToLower value
  if jsStartsWith lower "dingtalk:" then jsDrop value 9
  else if jsStartsWith lower "dd:" then jsDrop value 3
  else if jsStartsWith lower "ding:" then jsDrop value 5
  else value

/-- `normalizeAllowFrom` from `channel.ts`: trim every entry, drop blanks,
record whether a wildcard `*` is present, strip channel prefixes from the
remaining entries and also keep lowercase forms. -/
def normalizeAllowFrom (list : List String) : NormalizedAllowFrom :=
  let entries := (list.map jsTrim).filter (fun v => v ≠ "")
  let hasWildcard := entries.contains "*"
  let normalized := (entries.filter (fun v => v ≠ "*")).map stripChannelPrefix
  let normalizedLower := normalized.map jsToLower
  { entries := normalized
    entriesLower := normalizedLower
    hasWildcard := hasWildcard
    hasEntries := entries.length > 0 }

/-- `isSenderAllowed` from `channel.ts`.  The sender id parameter is the
`""`-for-absent encoding of the optional `senderId`. -/
def isSenderAllowed (allow : NormalizedAllowFrom) (senderId : String) : Bool :=
  if !allow.hasEntries then true
  else if allow.hasWildcard then true
  else if senderId ≠ "" && allow.entriesLower.contains (jsToLower senderId) then true
  else false

/-! ## Retry helper (`retryWithBackoff` from `../utils`) and HTTP failures -/

/-- Outcome of one failed HTTP attempt: a network-level error, which carries
no HTTP response (`err.response` is `undefined`), or an HTTP status code
(`err.response.status`). -/
inductive HttpFailure
  | network
  | status (code : Nat)
deriving DecidableEq, Repr

/-- The `isRetryable` classification inside `retryWithBackoff` (from
`../utils`, the utilities module of this repository):
`statusCode === 401 || statusCode === 429 || (statusCode && statusCode >= 500)`
where `statusCode = err.response?.status`.  A network-level error has no
response, so its `statusCode` is `undefined` (falsy) and it is **not**
retryable. -/
def isRetryable : HttpFailure → Bool
  | .network => false
  | .status code => code == 401 || code == 429 || (code != 0 && decide (500 ≤ code))

/-- The attempt loop of `retryWithBackoff` (from `../utils`):
`for (attempt = 1; attempt <= maxRetries; attempt++)` — run `fn`; on success
return; on failure rethrow unless the error is retryable and attempts remain
(`!isRetryable || attempt === maxRetries` throws), otherwise back off and
retry.  Here `k` is the 0-based index of the current attempt, the fuel is the
number of attempts still allowed after it (`maxRetries - 1 - k`), and `fn k`
is the outcome of the k-th call of `fn`; the result is paired with the number
of attempts performed.  The backoff delays (`baseDelayMs * 2^(attempt-1)`) do
not affect the result and are not modelled. -/
def retryGo (fn : Nat → Except HttpFailure α) (k : Nat) : Nat → Except HttpFailure α × Nat
  | 0 => (fn k, k + 1)
  | fuel + 1 =>
    match fn k with
    | .ok a => (.ok a, k + 1)
    | .error e =>
      if isRetryable e then retryGo fn (k + 1) fuel else (.error e, k + 1)

/-- `retryWithBackoff` from `../utils`: at most `maxRetries` total attempts
(the callers in `channel.ts` pass `maxRetries: 3`, which is also the
default). -/
def retryWithBackoff (fn : Nat → Except HttpFailure α) (maxRetries : Nat) :
    Except HttpFailure α × Nat :=
  retryGo fn 0 (maxRetries - 1)

/-! ## Token cache (`getAccessToken`) -/

structure TokenInfo where
  accessToken : String
  expireIn : Nat
deriving DecidableEq, Repr

/-- The module-level token cache: `accessToken` (`""` = `null`) and
`accessTokenExpiry`. -/
structure TokenCache where
  accessToken : String
  accessTokenExpiry : Nat
deriving DecidableEq, Repr

/-- `getAccessToken` from `channel.ts`: return the cached token while its
expiry is more than 60 s away, otherwise refresh through the retry helper
(`maxRetries: 3`), storing the new token and `now + expireIn * 1000`.
The result carries the returned token (or failure), the cache afterwards, and
the number of network attempts made. -/
def getAccessToken (cache : TokenCache) (now : Nat)
    (attempt : Nat → Except HttpFailure TokenInfo) :
    Except HttpFailure String × TokenCache × Nat :=
  if cache.accessToken ≠ "" ∧ cache.accessTokenExpiry > now + 60000 then
    (.ok cache.accessToken, cache, 0)
  else
    match retryWithBackoff attempt 3 with
    | (.ok info, n) =>
      (.ok info.accessToken, ⟨info.accessToken, now + info.expireIn * 1000⟩, n)
    | (.error e, n) => (.error e, cache, n)

/-! ## Card registry and `updateInteractiveCard` -/

structure CardInstance where
  cardBizId : String
  conversationId : String
  createdAt : Nat
  lastUpdated : Nat
deriving DecidableEq, Repr

/-- JS `Map` lookup on an association list (insertion order, unique keys). -/
def mapGet : List (String × β) → String → Option β
  | [], _ => none
  | (k', v) :: t, k => if k' = k then some v else mapGet t k

/-- JS `Map.set`: replace the value in place if the key exists, otherwise
append at the end. -/
def mapSet : List (String × β) → String → β → List (String × β)
  | [], k, v => [(k, v)]
  | (k', v') :: t, k, v => if k' = k then (k, v) :: t else (k', v') :: mapSet t k v

/-- JS `Map.delete`. -/
def mapDelete : List (String × β) → String → List (String × β)
  | [], _ => []
  | (k', v') :: t, k => if k' = k then t else (k', v') :: mapDelete t k

/-- The `cardInstances` map. -/
abbrev CardRegistry := List (String × CardInstance)

/-- `instance.lastUpdated = Date.now()` on the cached instance, if present. -/
def touchCard (reg : CardRegistry) (cardBizId : String) (now : Nat) : CardRegistry :=
  match mapGet reg cardBizId with
  | some inst => mapSet reg cardBizId { inst with lastUpdated := now }
  | none => reg

/-- `updateInteractiveCard` from `channel.ts`, at the granularity of the card
registry and the network attempts: the PUT is wrapped in
`retryWithBackoff (maxRetries: 3)`; on success the cached instance's
`lastUpdated` is refreshed; on failure with status 404, 410 or 403 the card is
evicted from `cardInstances` and the error is rethrown; any other failure is
rethrown with the registry untouched.  (Payload construction and the access
token are irrelevant to the registry/attempt behaviour and are not modelled.)
Returns the outcome, the registry afterwards, and the number of attempts. -/
def updateInteractiveCard (reg : CardRegistry) (cardBizId : String) (now : Nat)
    (attempt : Nat → Except HttpFailure Unit) :
    Except HttpFailure Unit × CardRegistry × Nat :=
  match retryWithBackoff attempt 3 with
  | (.ok _, n) => (.ok (), touchCard reg cardBizId now, n)
  | (.error e, n) =>
    let terminal := match e with
      | .status code => code == 404 || code == 410 || code == 403
      | .network => false
    (.error e, if terminal then mapDelete reg cardBizId else reg, n)

/-! ## Card update throttle (`updateInteractiveCardThrottled`) -/

def CARD_UPDATE_MIN_INTERVAL : Nat := 500
def CARD_UPDATE_TIMEOUT : Nat := 60000

/-- A scheduled-but-not-yet-sent update: the armed timer's fire time, the text
it will send, and the identity of the promise that the scheduling call
returned (settled only inside the timer callback). -/
structure Sched where
  fireAt : Nat
  text : String
  pid : Nat
deriving DecidableEq, Repr

/-- What `cardUpdateTimeouts` holds for a card: either the scheduled-update
timer or the post-update inactivity timer. -/
inductive CardTimer
  | scheduled (s : Sched)
  | inactivity (deadline : Nat)
deriving DecidableEq, Repr

/-- Per-card throttle state: `cardUpdateTimestamps.get(id) || 0`, the
`cardUpdateTimeouts` slot, the log of network update calls `(time, text)`,
and the list of promise ids that have been settled (resolved or rejected). -/
structure ThrottleState where
  lastUpdate : Nat
  timerSlot : Option CardTimer
  netCalls : List (Nat × String)
  settled : List Nat
deriving DecidableEq, Repr

/-- One call to `updateInteractiveCardThrottled` at time `now`, for one card:
clear any existing timeout; if ≥ 500 ms have passed since the last update,
send immediately (the call's promise settles) and arm the inactivity timer;
otherwise arm a timer for `CARD_UPDATE_MIN_INTERVAL - timeSinceLastUpdate`
carrying this call's text and promise.  The network update itself is assumed
to succeed (failure paths are covered by `updateInteractiveCard`). -/
def throttleRequest (s : ThrottleState) (now : Nat) (text : String) (pid : Nat) :
    ThrottleState :=
  let timeSinceLastUpdate := now - s.lastUpdate
  let s := { s with timerSlot := none }
  if timeSinceLastUpdate ≥ CARD_UPDATE_MIN_INTERVAL then
    { s with lastUpdate := now,
             netCalls := s.netCalls ++ [(now, text)],
             settled := s.settled ++ [pid],
             timerSlot := some (.inactivity (now + CARD_UPDATE_TIMEOUT)) }
  else
    let sch : Sched := ⟨now + (CARD_UPDATE_MIN_INTERVAL - timeSinceLastUpdate), text, pid⟩
    { s with timerSlot := some (.scheduled sch) }

/-- Firing whatever timer is currently armed: a scheduled update performs the
network call at its fire time, settles its promise, records the new timestamp
and arms the inactivity timer; the inactivity timer just deletes its map entry
(the local "finalized" signal). -/
def throttleFire (s : ThrottleState) : ThrottleState :=
  match s.timerSlot with
  | some (.scheduled sch) =>
    { lastUpdate := sch.fireAt,
      timerSlot := some (.inactivity (sch.fireAt + CARD_UPDATE_TIMEOUT)),
      netCalls := s.netCalls ++ [(sch.fireAt, sch.text)],
      settled := s.settled ++ [sch.pid] }
  | some (.inactivity _) => { s with timerSlot := none }
  | none => s

/-- The deadline of the currently armed timer, if any. -/
def timerDeadline : Option CardTimer → Option Nat
  | some (.scheduled sch) => some sch.fireAt
  | some (.inactivity d) => some d
  | none => none

/-- Fire every timer whose deadline has been reached by time `t` (at most two
in a row: a scheduled update hands over to an inactivity timer). -/
def throttleCatchUp (s : ThrottleState) (t : Nat) : ThrottleState :=
  let s := match timerDeadline s.timerSlot with
    | some d => if d ≤ t then throttleFire s else s
    | none => s
  match timerDeadline s.timerSlot with
  | some d => if d ≤ t then throttleFire s else s
  | none => s

structure ThrottleCall where
  time : Nat
  text : String
  pid : Nat
deriving DecidableEq, Repr

/-- Run a chronological sequence of throttled update calls for one card,
firing due timers between calls. -/
def throttleRun (s : ThrottleState) : List ThrottleCall → ThrottleState
  | [] => s
  | c :: cs => throttleRun (throttleRequest (throttleCatchUp s c.time) c.time c.text c.pid) cs

/-- Let the remaining timers run to quiescence (a scheduled update fires, then
its inactivity timer fires; afterwards no timer is armed). -/
def throttleSettle (s : ThrottleState) : ThrottleState :=
  throttleFire (throttleFire s)

/-! ## Inbound messages and `extractMessageContent` -/

/-- One component of a `richText` payload.  `ptype` embeds `part.type` and
`text` embeds `part.text`; both distinguish `undefined` (`none`) from other
values because the source tests `part.text !== undefined`.  The remaining
fields are only ever tested for truthiness and use the `""`-for-absent
encoding. -/
structure RichTextPart where
  ptype : Option String
  text : Option String
  atName : String
  atUserId : String
  downloadCode : String
  fileName : String
  url : String
deriving DecidableEq, Repr

/-- A media reference collected from a rich text message (`RichTextMediaFile`
in `types.ts`): `type` is `"image"` or `"file"`. -/
structure RichTextMediaFile where
  downloadCode : String
  fileName : String
  mediaKind : String
deriving DecidableEq, Repr

/-- An inbound event envelope (`DingTalkInboundMessage`), restricted to the
fields the handler reads.  `textContent` embeds `data.text?.content`;
`contentRichText`, `contentDownloadCode`, `contentRecognition` and
`contentFileName` embed the corresponding `data.content?.*` fields. -/
structure InboundData where
  msgId : String
  msgtype : String
  senderId : String
  senderStaffId : String
  senderNick : String
  chatbotUserId : String
  conversationId : String
  conversationType : String
  conversationTitle : String
  createAt : Nat
  textContent : String
  contentRichText : List RichTextPart
  contentDownloadCode : String
  contentRecognition : String
  contentFileName : String
deriving DecidableEq, Repr

/-- Extracted message content (`MessageContent` / `RichTextContent`): the
`rich` field is `some (mediaFiles, richTextParts)` exactly when the source
value carries the `mediaFiles` / `richTextParts` fields (i.e. is a
`RichTextContent`). -/
structure MsgContent where
  text : String
  messageType : String
  mediaPath : String
  mediaType : String
  rich : Option (List RichTextMediaFile × List RichTextPart)
deriving DecidableEq, Repr

/-- One iteration of the `richText` parsing loop in `extractMessageContent`:
fold state is the accumulated text and media file list. -/
def richTextStep (acc : String × List RichTextMediaFile) (part : RichTextPart) :
    String × List RichTextMediaFile :=
  let text := acc.1
  let mediaFiles := acc.2
  let partType0 := jsOptStr part.ptype
  let partType :=
    if partType0 = "" then (if part.text.isSome then "text" else "unknown") else partType0
  if partType = "text" then
    (if jsOptStr part.text ≠ "" then text ++ jsOptStr part.text else text, mediaFiles)
  else if partType = "at" then
    (if part.atName ≠ "" then text ++ "@" ++ part.atName ++ " " else text, mediaFiles)
  else if partType = "picture" then
    if part.downloadCode ≠ "" then
      (text ++ "[图片] ",
       mediaFiles ++
         [⟨part.downloadCode,
           jsOr part.fileName ("image_" ++ toString (mediaFiles.length + 1)), "image"⟩])
    else (text, mediaFiles)
  else if partType = "image" then
    if part.downloadCode ≠ "" then
      (text ++ "[图片] ", mediaFiles ++ [⟨part.downloadCode, part.fileName, "image"⟩])
    else (text, mediaFiles)
  else if partType = "file" then
    if part.downloadCode ≠ "" then
      (text ++ "[文件: " ++ jsOr part.fileName "文件" ++ "] ",
       mediaFiles ++ [⟨part.downloadCode, part.fileName, "file"⟩])
    else (text, mediaFiles)
  else if partType = "link" then
    if part.url ≠ "" then
      (if jsOptStr part.text ≠ "" then
         text ++ "[" ++ jsOptStr part.text ++ "](" ++ part.url ++ ") "
       else text ++ "[链接](" ++ part.url ++ ") ", mediaFiles)
    else (text, mediaFiles)
  else
    (if jsOptStr part.text ≠ "" then text ++ jsOptStr part.text else text, mediaFiles)

/-- `extractMessageContent` from `channel.ts`. -/
def extractMessageContent (data : InboundData) : MsgContent :=
  let msgtype := jsOr data.msgtype "text"
  if msgtype = "text" then
    { text := jsTrim data.textContent, messageType := "text",
      mediaPath := "", mediaType := "", rich := none }
  else if msgtype = "richText" then
    let richTextParts := data.contentRichText
    let folded := richTextParts.foldl richTextStep ("", [])
    let mediaFiles := folded.2
    { text := jsOr (jsTrim folded.1) "[富文本消息]",
      messageType := "richText",
      mediaPath := jsOptStr ((mediaFiles.head?).map RichTextMediaFile.downloadCode),
      mediaType := jsOptStr ((mediaFiles.head?).map RichTextMediaFile.mediaKind),
      rich := some (mediaFiles, richTextParts) }
  else if msgtype = "picture" then
    { text := "[图片]", messageType := "picture",
      mediaPath := data.contentDownloadCode, mediaType := "image", rich := none }
  else if msgtype = "audio" then
    { text := jsOr data.contentRecognition "[语音消息]", messageType := "audio",
      mediaPath := data.contentDownloadCode, mediaType := "audio", rich := none }
  else if msgtype = "video" then
    { text := "[视频]", messageType := "video",
      mediaPath := data.contentDownloadCode, mediaType := "video", rich := none }
  else if msgtype = "file" then
    { text := "[文件: " ++ jsOr data.contentFileName "文件" ++ "]", messageType := "file",
      mediaPath := data.contentDownloadCode, mediaType := "file", rich := none }
  else
    { text := jsOr (jsTrim data.textContent) ("[" ++ msgtype ++ "消息]"), messageType := msgtype,
      mediaPath := "", mediaType := "", rich := none }

/-! ## Message merge buffer -/

def MESSAGE_MERGE_WINDOW_MS : Nat := 2000
def MESSAGE_MERGE_MAX_MESSAGES : Nat := 5

/-- One buffered message of a merge entry. -/
structure MergeMsg where
  content : MsgContent
  data : InboundData
  timestamp : Nat
deriving DecidableEq, Repr

/-- `MergedMessageEntry`: the buffered messages, the identity of the window
timer armed for this entry (`clearTimeout` is modelled by the entry — and with
it the id — disappearing, so a stale fire event matches nothing), and the
bookkeeping fields. -/
structure MergedMessageEntry where
  messages : List MergeMsg
  timerId : Nat
  accountId : String
  senderId : String
  sessionKey : String
  startTime : Nat
deriving DecidableEq, Repr

/-- `Array.from(new Map(files.map(m => [m.downloadCode, m])).values())` from
`processMergedMessages`: a JS `Map` built from key/value pairs keeps each key
at its first insertion position but a repeated `set` replaces the stored
value, so `mapSet` (the JS `Map.set`) is folded over the pairs. -/
def jsMapDedup (files : List RichTextMediaFile) : List RichTextMediaFile :=
  (files.foldl (fun m f => mapSet m f.downloadCode f) []).map Prod.snd

/-- The media collection loop of `processMergedMessages`: messages whose
content carries a non-empty `mediaFiles` list contribute all of it; otherwise
a message with a `mediaPath` contributes one synthesized reference. -/
def collectMediaFiles (messages : List MergeMsg) : List RichTextMediaFile :=
  messages.foldl
    (fun acc m =>
      match m.content.rich with
      | some (mfs, _) =>
        if mfs.length > 0 then acc ++ mfs
        else if m.content.mediaPath ≠ "" then
          acc ++ [⟨m.content.mediaPath,
                   jsOr m.data.contentFileName ("media_" ++ m.data.msgId),
                   if m.content.mediaType = "image" then "image" else "file"⟩]
        else acc
      | none =>
        if m.content.mediaPath ≠ "" then
          acc ++ [⟨m.content.mediaPath,
                   jsOr m.data.contentFileName ("media_" ++ m.data.msgId),
                   if m.content.mediaType = "image" then "image" else "file"⟩]
        else acc)
    []

/-- The deduplicated media list of a merge entry (`uniqueMediaFiles` in
`processMergedMessages`). -/
def mergedMediaFiles (entry : MergedMessageEntry) : List RichTextMediaFile :=
  jsMapDedup (collectMediaFiles entry.messages)

/-- The merged `RichTextContent` built by `processMergedMessages`: texts are
joined with a blank line after dropping falsy ones (with the `"[合并消息]"`
placeholder if the join is empty), media references are deduplicated by
`downloadCode` through a JS `Map`, and all rich text parts are concatenated. -/
def mergedContentOf (entry : MergedMessageEntry) : MsgContent :=
  let mergedText :=
    jsJoin "\n\n" ((entry.messages.map (fun m => m.content.text)).filter (fun t => t ≠ ""))
  let uniqueMediaFiles := mergedMediaFiles entry
  let allRichTextParts :=
    entry.messages.flatMap (fun m =>
      match m.content.rich with
      | some (_, parts) => parts
      | none => [])
  { text := jsOr mergedText "[合并消息]",
    messageType := "richText",
    mediaPath := jsOptStr ((uniqueMediaFiles.head?).map RichTextMediaFile.downloadCode),
    mediaType := jsOptStr ((uniqueMediaFiles.head?).map RichTextMediaFile.mediaKind),
    rich := some (uniqueMediaFiles, allRichTextParts) }

/-- `processMergedMessages`: the single resulting pipeline invocation, carrying
the first buffered message's envelope and the merged content.  `none` models
the crash the source would hit on an empty entry (never reached: every caller
guarantees at least one buffered message). -/
def processMergedMessages (entry : MergedMessageEntry) :
    Option (InboundData × MsgContent) :=
  match entry.messages.head? with
  | some firstMessage => some (firstMessage.data, mergedContentOf entry)
  | none => none

/-- Merge buffer state: the `messageMergeCache` map, a counter providing fresh
window timer identities, and the log of pipeline invocations
(`handleDingTalkMessageOriginal` calls) performed so far. -/
structure BufState where
  cache : List (String × MergedMessageEntry)
  nextTimerId : Nat
  pipeline : List (InboundData × MsgContent)
deriving DecidableEq, Repr

/-- The empty merge buffer. -/
def BufState.init : BufState := ⟨[], 0, []⟩

/-- The robot self-message filter at the top of `handleDingTalkMessage`:
`data.senderId === data.chatbotUserId || data.senderStaffId === data.chatbotUserId`. -/
def isSelfMessage (data : InboundData) : Bool :=
  data.senderId == data.chatbotUserId || data.senderStaffId == data.chatbotUserId

/-- The merge key `` `${accountId}:${senderId}:${data.conversationId}` `` with
`senderId = data.senderStaffId || data.senderId`. -/
def mergeCacheKey (accountId : String) (data : InboundData) : String :=
  accountId ++ ":" ++ jsOr data.senderStaffId data.senderId ++ ":" ++ data.conversationId

/-- The buffered message built from an arriving event. -/
def mkMergeMsg (data : InboundData) (now : Nat) : MergeMsg :=
  ⟨extractMessageContent data, data, now⟩

/-- `handleDingTalkMessage` from `channel.ts`: drop robot self-messages;
append to an open merge entry for the (account, sender, conversation) key,
flushing immediately when the count reaches `MESSAGE_MERGE_MAX_MESSAGES`;
otherwise open a fresh entry with a newly armed window timer. -/
def handleDingTalkMessage (s : BufState) (accountId : String) (data : InboundData)
    (now : Nat) : BufState :=
  if isSelfMessage data then s
  else
    let senderId := jsOr data.senderStaffId data.senderId
    let cacheKey := mergeCacheKey accountId data
    match mapGet s.cache cacheKey with
    | some existingEntry =>
      let content := extractMessageContent data
      let entry' :=
        { existingEntry with
          messages := existingEntry.messages ++ [⟨content, data, now⟩] }
      if entry'.messages.length ≥ MESSAGE_MERGE_MAX_MESSAGES then
        let cache' := mapDelete (mapSet s.cache cacheKey entry') cacheKey
        match processMergedMessages entry' with
        | some invocation => { s with cache := cache', pipeline := s.pipeline ++ [invocation] }
        | none => { s with cache := cache' }
      else
        { s with cache := mapSet s.cache cacheKey entry' }
    | none =>
      let content := extractMessageContent data
      let entry : MergedMessageEntry :=
        { messages := [⟨content, data, now⟩], timerId := s.nextTimerId,
          accountId := accountId, senderId := senderId, sessionKey := "",
          startTime := now }
      { s with cache := mapSet s.cache cacheKey entry, nextTimerId := s.nextTimerId + 1 }

/-- The window timer callback: if the entry for the key still exists (a
cleared timer's identity no longer matches any entry) and holds at least one
message, remove it and invoke the pipeline once with the merged content. -/
def fireMergeTimer (s : BufState) (cacheKey : String) (timerId : Nat) : BufState :=
  match mapGet s.cache cacheKey with
  | some cached =>
    if cached.timerId = timerId ∧ cached.messages.length > 0 then
      match processMergedMessages cached with
      | some invocation =>
        { s with cache := mapDelete s.cache cacheKey, pipeline := s.pipeline ++ [invocation] }
      | none => { s with cache := mapDelete s.cache cacheKey }
    else s
  | none => s

/-- An externally observable merge buffer event: an inbound event arriving, or
a window timer firing. -/
inductive MergeEv
  | arrive (accountId : String) (data : InboundData) (t : Nat)
  | fire (cacheKey : String) (timerId : Nat)
deriving Repr

/-- Run a sequence of merge buffer events. -/
def runMerge (s : BufState) : List MergeEv → BufState
  | [] => s
  | .arrive accountId data t :: evs => runMerge (handleDingTalkMessage s accountId data t) evs
  | .fire cacheKey timerId :: evs => runMerge (fireMergeTimer s cacheKey timerId) evs

/-! ## Inbound pipeline (`handleDingTalkMessageOriginal`), at effect level -/

/-- The channel configuration fields the pipeline reads.  `showThinking` keeps
`Option Bool` because the source tests `showThinking !== false`. -/
structure PipelineConfig where
  dmPolicy : String
  allowFrom : List String
  messageType : String
  showThinking : Option Bool
  robotCode : String
deriving DecidableEq, Repr

/-- The externally visible interactions of one `handleDingTalkMessageOriginal`
run, in order. -/
inductive Effect
  | denialNotice (sessionWebhook : String) (text : String)
  | resolveRoute
  | downloadMedia (downloadCode : String)
  | recordSession
  | thinkingCard
  | thinkingText
  | dispatchReply
  | cleanupMedia
deriving DecidableEq, Repr

/-- The localized access-denied notice, with the sender's own id interpolated. -/
def accessDeniedText (senderId : String) : String :=
  "⛔ 访问受限\n\n您的用户ID：`" ++ senderId ++ "`\n\n请联系管理员将此ID添加到允许列表中。"

/-- The media-resolution step of the pipeline (step 4): a rich text content
with media files downloads each of them; otherwise a plain media message with
a download code (and a configured `robotCode`) downloads that single item. -/
def mediaEffects (cfg : PipelineConfig) (content : MsgContent) : List Effect :=
  if content.messageType = "richText" ∧ content.rich.isSome then
    match content.rich with
    | some (mediaFiles, _) =>
      if mediaFiles.length > 0 then
        mediaFiles.map (fun f => Effect.downloadMedia f.downloadCode)
      else []
    | none => []
  else if content.mediaPath ≠ "" ∧ cfg.robotCode ≠ "" then
    [Effect.downloadMedia content.mediaPath]
  else []

/-- `handleDingTalkMessageOriginal` from `channel.ts`, at the granularity of
its externally visible interactions: abort silently when the (merged) content
has no text; for direct messages under the `allowlist` policy, reject
unauthorized senders with a denial notice via the session webhook and stop;
otherwise resolve the route, download media, record the session, optionally
send the "thinking" acknowledgment (card or text according to the message
mode), dispatch the reply and clean up session media. -/
def handleDingTalkMessageOriginal (cfg : PipelineConfig) (sessionWebhook : String)
    (data : InboundData) (content : MsgContent) : List Effect :=
  if content.text = "" then []
  else if data.conversationType = "1" ∧ jsOr cfg.dmPolicy "open" = "allowlist"
      ∧ isSenderAllowed (normalizeAllowFrom cfg.allowFrom)
          (jsOr data.senderStaffId data.senderId) = false then
    [Effect.denialNotice sessionWebhook
      (accessDeniedText (jsOr data.senderStaffId data.senderId))]
  else
    [Effect.resolveRoute] ++ mediaEffects cfg content ++ [Effect.recordSession]
      ++ (if cfg.showThinking ≠ some false then
            [if cfg.messageType = "card" then Effect.thinkingCard else Effect.thinkingText]
          else [])
      ++ [Effect.dispatchReply, Effect.cleanupMedia]

/-! ## Specification-side helper functions

Used only to state properties; they are not part of the embedded program. -/

/-- The last element of a list satisfying `p`, if any. -/
def findLast? (p : α → Prop) [DecidablePred p] : List α → Option α
  | [] => none
  | a :: t =>
    match findLast? p t with
    | some b => some b
    | none => if p a then some a else none

/-- The text of the last throttle call, with `t0` for an empty list. -/
def lastText (t0 : String) : List ThrottleCall → String
  | [] => t0
  | c :: cs => lastText c.text cs

/-- The promise id of the last throttle call, with `p0` for an empty list. -/
def lastPid (p0 : Nat) : List ThrottleCall → Nat
  | [] => p0
  | c :: cs => lastPid c.pid cs

/-- Well-formedness of an association list standing for a JS `Map`: keys are
unique and (for the dedup map) every value's `downloadCode` is its key. -/
def MapWF (m : List (String × RichTextMediaFile)) : Prop :=
  (m.map Prod.fst).Nodup ∧ ∀ p ∈ m, p.2.downloadCode = p.1

/-- The entry of the merge window opened by a first arrival
`(accountId, d0, t0)` (timer id 0, as armed from the initial state), with a
given buffered message list. -/
def windowEntry (accountId : String) (d0 : InboundData) (t0 : Nat)
    (msgs : List MergeMsg) : MergedMessageEntry :=
  ⟨msgs, 0, accountId, jsOr d0.senderStaffId d0.senderId, "", t0⟩

/-! ## Concrete fixtures for witnesses and counterexamples -/

/-- A plain text inbound event ("part one") in conversation `conv1`. -/
def dPartOne : InboundData :=
  ⟨"m1", "text", "u1", "", "Nick", "bot", "conv1", "1", "", 0, "part one", [], "", "", ""⟩

/-- A plain text inbound event ("part two") by the same sender in `conv1`. -/
def dPartTwo : InboundData :=
  ⟨"m2", "text", "u1", "", "Nick", "bot", "conv1", "1", "", 0, "part two", [], "", "", ""⟩

/-- A plain text inbound event whose text content is empty (no extractable
text), in group conversation `conv2`. -/
def dEmptyText : InboundData :=
  ⟨"m0", "text", "u1", "", "Nick", "bot", "conv2", "2", "", 0, "", [], "", "", ""⟩

/-- A rich text inbound event carrying one image (`dc1`, named `a.png`). -/
def dImageA : InboundData :=
  ⟨"ma", "richText", "u1", "", "Nick", "bot", "conv1", "1", "", 0, "",
   [⟨some "picture", none, "", "", "dc1", "a.png", ""⟩], "", "", ""⟩

/-- A rich text inbound event carrying one image with the same download code
`dc1` but a different file name `b.png`. -/
def dImageB : InboundData :=
  ⟨"mb", "richText", "u1", "", "Nick", "bot", "conv1", "1", "", 0, "",
   [⟨some "picture", none, "", "", "dc1", "b.png", ""⟩], "", "", ""⟩

/-- The merge entry holding the two events `dImageA`, `dImageB` (in this
order), as built by two arrivals inside one window. -/
def entryDupMedia : MergedMessageEntry :=
  ⟨[mkMergeMsg dImageA 0, mkMergeMsg dImageB 300], 0, "acc", "u1", "", 0⟩

/-- The merge entry holding the single no-text event `dEmptyText`. -/
def entryEmptyText : MergedMessageEntry :=
  ⟨[mkMergeMsg dEmptyText 0], 0, "acc", "u1", "", 0⟩

/-- A configuration with defaults: no dmPolicy (open), no allowlist, default
message type, thinking enabled, no robot code. -/
def cfgDefault : PipelineConfig := ⟨"", [], "", none, ""⟩

/-- A buffer state holding one open merge entry (the no-text entry) under its
key. -/
def bufOneEmpty : BufState := ⟨[("acc:u1:conv2", entryEmptyText)], 1, []⟩

/-- An allowlist configuration admitting only `u9`. -/
def cfgAllowU9 : PipelineConfig := ⟨"allowlist", ["u9"], "", none, ""⟩

/-! ## General lemmas about the JS `Map` embedding -/

theorem mapGet_mapSet (m : List (String × β)) (k c : String) (v : β) :
    mapGet (mapSet m k v) c = if k = c then some v else mapGet m c := by
  induction m with
  | nil => by_cases h : k = c <;> simp [mapSet, mapGet, h]
  | cons p t ih =>
    obtain ⟨k', v'⟩ := p
    by_cases h1 : k' = k
    · subst h1
      by_cases h2 : k' = c <;> simp [mapSet, mapGet, h2]
    · by_cases h2 : k' = c
      · subst h2
        have : ¬ k = k' := fun he => h1 he.symm
        simp [mapSet, mapGet, h1, this]
      · simp [mapSet, mapGet, h1, h2, ih]

theorem mapGet_eq_none_of_not_mem (m : List (String × β)) (k : String)
    (h : k ∉ m.map Prod.fst) : mapGet m k = none := by
  induction m with
  | nil => rfl
  | cons p t ih =>
    obtain ⟨k', v'⟩ := p
    simp only [List.map_cons, List.mem_cons] at h
    push_neg at h
    rw [mapGet, if_neg (fun he => h.1 he.symm)]
    exact ih h.2

theorem mapGet_mapDelete_self (m : List (String × β)) (k : String)
    (h : (m.map Prod.fst).Nodup) : mapGet (mapDelete m k) k = none := by
  induction m with
  | nil => rfl
  | cons p t ih =>
    obtain ⟨k', v'⟩ := p
    simp only [List.map_cons, List.nodup_cons] at h
    by_cases h1 : k' = k
    · subst h1
      rw [mapDelete, if_pos rfl]
      exact mapGet_eq_none_of_not_mem t k' h.1
    · rw [mapDelete, if_neg h1, mapGet, if_neg h1]
      exact ih h.2

/-! ## Claim C10: an empty or all-blank allowlist admits every sender -/

/-- C10: under the allowlist policy with an empty (or all-blank) `allowFrom`
list, the sender check returns `true` for every sender, because the normalized
list has no entries. -/
theorem empty_allowlist_allows_all (list : List String) (senderId : String)
    (h : ∀ e ∈ list, jsTrim e = "") :
    isSenderAllowed (normalizeAllowFrom list) senderId = true := by
  have hentries : (list.map jsTrim).filter (fun v => v ≠ "") = [] := by
    apply List.filter_eq_nil_iff.mpr
    intro a ha
    simp only [List.mem_map] at ha
    obtain ⟨x, hx, rfl⟩ := ha
    simp [h x hx]
  have h2 : (normalizeAllowFrom list).hasEntries = false := by
    unfold normalizeAllowFrom
    simp only [hentries]
    rfl
  unfold isSenderAllowed
  rw [h2]
  rfl

/-- Witness for C10 at the concrete all-blank list `["  ", ""]`. -/
theorem empty_allowlist_allows_all_witness :
    isSenderAllowed (normalizeAllowFrom ["  ", ""]) "anyone" = true :=
  empty_allowlist_allows_all ["  ", ""] "anyone" (by decide)

/-! ## Claim C8: allowlist rejection sends a denial notice and stops -/

/-- C8: a direct message processed under the `allowlist` policy whose sender
is not admitted by the sender check causes exactly one effect — a denial
notice through the session webhook whose text interpolates the sender's own
id — and no route resolution, media download, session recording or reply
dispatch. -/
theorem allowlist_denial_stops_pipeline (cfg : PipelineConfig) (sessionWebhook : String)
    (data : InboundData) (content : MsgContent)
    (htext : content.text ≠ "")
    (hdirect : data.conversationType = "1")
    (hpolicy : cfg.dmPolicy = "allowlist")
    (hdenied : isSenderAllowed (normalizeAllowFrom cfg.allowFrom)
        (jsOr data.senderStaffId data.senderId) = false) :
    handleDingTalkMessageOriginal cfg sessionWebhook data content =
      [Effect.denialNotice sessionWebhook
        (accessDeniedText (jsOr data.senderStaffId data.senderId))] ∧
    accessDeniedText (jsOr data.senderStaffId data.senderId) =
      "⛔ 访问受限\n\n您的用户ID：`" ++ jsOr data.senderStaffId data.senderId ++
        "`\n\n请联系管理员将此ID添加到允许列表中。" := by
  refine ⟨?_, rfl⟩
  have hpol : jsOr cfg.dmPolicy "open" = "allowlist" := by
    rw [hpolicy]; rfl
  unfold handleDingTalkMessageOriginal
  rw [if_neg htext, if_pos ⟨hdirect, hpol, hdenied⟩]

/-- Witness for C8: sender `u1` against the allowlist `["u9"]`. -/
theorem allowlist_denial_stops_pipeline_witness :
    handleDingTalkMessageOriginal cfgAllowU9 "wh" dPartOne (extractMessageContent dPartOne) =
      [Effect.denialNotice "wh"
        (accessDeniedText (jsOr dPartOne.senderStaffId dPartOne.senderId))] :=
  (allowlist_denial_stops_pipeline cfgAllowU9 "wh" dPartOne (extractMessageContent dPartOne)
    (by decide) (by decide) (by decide) (by decide)).1

/-! ## Claim C6: the token cache -/

/-- C6: a token fetch returns the cached token with zero network calls while
its remaining lifetime exceeds the 60 s safety margin; otherwise (expired,
within the margin, or no cached token) a single successful refresh attempt
yields exactly one network call and replaces the cached token and its
expiry. -/
theorem token_cache_fetch_behavior (cache : TokenCache) (now : Nat)
    (attempt : Nat → Except HttpFailure TokenInfo) :
    (cache.accessToken ≠ "" ∧ cache.accessTokenExpiry > now + 60000 →
      getAccessToken cache now attempt = (.ok cache.accessToken, cache, 0)) ∧
    (¬ (cache.accessToken ≠ "" ∧ cache.accessTokenExpiry > now + 60000) →
      ∀ info : TokenInfo, attempt 0 = .ok info →
        getAccessToken cache now attempt =
          (.ok info.accessToken, ⟨info.accessToken, now + info.expireIn * 1000⟩, 1)) := by
  constructor
  · intro h
    unfold getAccessToken
    rw [if_pos h]
  · intro h info hattempt
    unfold getAccessToken
    rw [if_neg h]
    simp [retryWithBackoff, retryGo, hattempt]

/-- Witness for C6, exercising both branches: a fresh cached token is served
with zero calls, and an empty cache triggers exactly one refresh that replaces
the cache. -/
theorem token_cache_fetch_behavior_witness :
    getAccessToken ⟨"cached", 100000⟩ 0 (fun _ => .ok ⟨"fresh", 7200⟩) =
      (.ok "cached", ⟨"cached", 100000⟩, 0) ∧
    getAccessToken ⟨"", 0⟩ 0 (fun _ => .ok ⟨"fresh", 7200⟩) =
      (.ok "fresh", ⟨"fresh", 7200000⟩, 1) :=
  ⟨(token_cache_fetch_behavior ⟨"cached", 100000⟩ 0 (fun _ => .ok ⟨"fresh", 7200⟩)).1
      (by decide),
   (token_cache_fetch_behavior ⟨"", 0⟩ 0 (fun _ => .ok ⟨"fresh", 7200⟩)).2
      (by decide) ⟨"fresh", 7200⟩ rfl⟩

/-! ## Claim C5: terminal card-update failures evict without retry; 500 retries -/

/-- C5: a card update failing with HTTP 404, 410 or 403 performs exactly one
attempt (no retry), evicts the card from the registry (the id is absent
afterwards) and propagates the error; a card update failing with HTTP 500 is
retried up to the configured bound of 3 attempts and leaves the registry
untouched. -/
theorem card_update_terminal_and_retry (reg : CardRegistry) (cardBizId : String) (now : Nat)
    (hnodup : (reg.map Prod.fst).Nodup) :
    (∀ code, code = 404 ∨ code = 410 ∨ code = 403 →
      ∀ attempt : Nat → Except HttpFailure Unit,
        (∀ k, attempt k = .error (.status code)) →
          updateInteractiveCard reg cardBizId now attempt =
            (.error (.status code), mapDelete reg cardBizId, 1) ∧
          mapGet (mapDelete reg cardBizId) cardBizId = none) ∧
    (∀ attempt : Nat → Except HttpFailure Unit,
      (∀ k, attempt k = .error (.status 500)) →
        updateInteractiveCard reg cardBizId now attempt = (.error (.status 500), reg, 3)) := by
  constructor
  · intro code hcode attempt hattempt
    refine ⟨?_, mapGet_mapDelete_self reg cardBizId hnodup⟩
    have hnr : isRetryable (.status code) = false := by
      rcases hcode with h | h | h <;> subst h <;> decide
    unfold updateInteractiveCard retryWithBackoff
    have : retryGo attempt 0 (3 - 1) = (.error (.status code), 1) := by
      simp [retryGo, hattempt 0, hnr]
    rw [this]
    rcases hcode with h | h | h <;> subst h <;> simp
  · intro attempt hattempt
    unfold updateInteractiveCard retryWithBackoff
    have : retryGo attempt 0 (3 - 1) = (.error (.status 500), 3) := by
      simp [retryGo, hattempt 0, hattempt 1, hattempt 2, isRetryable]
    rw [this]
    simp

/-- Witness for C5 on a one-card registry: a constant-404 attempt evicts
`c1` in one attempt; a constant-500 attempt makes 3 attempts and keeps the
registry. -/
theorem card_update_terminal_and_retry_witness :
    updateInteractiveCard [("c1", ⟨"c1", "conv1", 0, 0⟩)] "c1" 7
        (fun _ => .error (.status 404)) =
      (.error (.status 404), [], 1) ∧
    updateInteractiveCard [("c1", ⟨"c1", "conv1", 0, 0⟩)] "c1" 7
        (fun _ => .error (.status 500)) =
      (.error (.status 500), [("c1", ⟨"c1", "conv1", 0, 0⟩)], 3) :=
  ⟨((card_update_terminal_and_retry [("c1", ⟨"c1", "conv1", 0, 0⟩)] "c1" 7 (by decide)).1
      404 (Or.inl rfl) (fun _ => .error (.status 404)) (fun _ => rfl)).1,
   (card_update_terminal_and_retry [("c1", ⟨"c1", "conv1", 0, 0⟩)] "c1" 7 (by decide)).2
      (fun _ => .error (.status 500)) (fun _ => rfl)⟩

/-! ## Characterizations of the merge handler's four branches -/

theorem handleDingTalkMessage_self (s : BufState) (accountId : String)
    (data : InboundData) (now : Nat) (hself : isSelfMessage data = true) :
    handleDingTalkMessage s accountId data now = s := by
  unfold handleDingTalkMessage
  rw [if_pos hself]

theorem handleDingTalkMessage_new (s : BufState) (accountId : String)
    (data : InboundData) (now : Nat) (hself : isSelfMessage data = false)
    (hget : mapGet s.cache (mergeCacheKey accountId data) = none) :
    handleDingTalkMessage s accountId data now =
      ⟨mapSet s.cache (mergeCacheKey accountId data)
          ⟨[mkMergeMsg data now], s.nextTimerId, accountId,
            jsOr data.senderStaffId data.senderId, "", now⟩,
        s.nextTimerId + 1, s.pipeline⟩ := by
  unfold handleDingTalkMessage
  rw [if_neg (by simp [hself])]
  simp only [hget, mkMergeMsg]

theorem handleDingTalkMessage_append (s : BufState) (accountId : String)
    (data : InboundData) (now : Nat) (e : MergedMessageEntry)
    (hself : isSelfMessage data = false)
    (hget : mapGet s.cache (mergeCacheKey accountId data) = some e)
    (hlt : e.messages.length + 1 < MESSAGE_MERGE_MAX_MESSAGES) :
    handleDingTalkMessage s accountId data now =
      ⟨mapSet s.cache (mergeCacheKey accountId data)
          { e with messages := e.messages ++ [mkMergeMsg data now] },
        s.nextTimerId, s.pipeline⟩ := by
  have hlen : ¬ ((e.messages ++ [mkMergeMsg data now]).length ≥ MESSAGE_MERGE_MAX_MESSAGES) := by
    simp only [List.length_append, List.length_cons, List.length_nil]
    omega
  unfold handleDingTalkMessage
  rw [if_neg (by simp [hself])]
  simp only [hget, mkMergeMsg] at hlen ⊢
  rw [if_neg hlen]

theorem handleDingTalkMessage_flush (s : BufState) (accountId : String)
    (data : InboundData) (now : Nat) (e : MergedMessageEntry) (first : MergeMsg)
    (hself : isSelfMessage data = false)
    (hget : mapGet s.cache (mergeCacheKey accountId data) = some e)
    (hge : e.messages.length + 1 ≥ MESSAGE_MERGE_MAX_MESSAGES)
    (hfirst : (e.messages ++ [mkMergeMsg data now]).head? = some first) :
    handleDingTalkMessage s accountId data now =
      ⟨mapDelete
          (mapSet s.cache (mergeCacheKey accountId data)
            { e with messages := e.messages ++ [mkMergeMsg data now] })
          (mergeCacheKey accountId data),
        s.nextTimerId,
        s.pipeline ++
          [(first.data,
            mergedContentOf { e with messages := e.messages ++ [mkMergeMsg data now] })]⟩ := by
  have hlen : (e.messages ++ [mkMergeMsg data now]).length ≥ MESSAGE_MERGE_MAX_MESSAGES := by
    simp only [List.length_append, List.length_cons, List.length_nil]
    omega
  unfold handleDingTalkMessage
  rw [if_neg (by simp [hself])]
  simp only [hget, mkMergeMsg] at hlen hfirst ⊢
  rw [if_pos hlen]
  unfold processMergedMessages
  rw [hfirst]

/-- The window timer callback on a state whose entry for the key is present
with a matching timer id and at least one message. -/
theorem fireMergeTimer_flush (s : BufState) (cacheKey : String) (e : MergedMessageEntry)
    (first : MergeMsg) (timerId : Nat)
    (hget : mapGet s.cache cacheKey = some e)
    (htid : e.timerId = timerId)
    (hfirst : e.messages.head? = some first) :
    fireMergeTimer s cacheKey timerId =
      ⟨mapDelete s.cache cacheKey, s.nextTimerId,
        s.pipeline ++ [(first.data, mergedContentOf e)]⟩ := by
  have hpos : e.messages.length > 0 := by
    cases hm : e.messages with
    | nil => rw [hm] at hfirst; exact absurd hfirst (by simp)
    | cons a t => simp [hm]
  unfold fireMergeTimer
  simp only [hget]
  rw [if_pos ⟨htid, hpos⟩]
  unfold processMergedMessages
  simp only [hfirst]

/-- The window timer callback is a no-op when no entry exists for the key. -/
theorem fireMergeTimer_noop (s : BufState) (cacheKey : String) (timerId : Nat)
    (hget : mapGet s.cache cacheKey = none) :
    fireMergeTimer s cacheKey timerId = s := by
  unfold fireMergeTimer
  rw [hget]

/-! ## Lemmas about the JS `Map`-based deduplication -/

theorem keys_mapSet (m : List (String × RichTextMediaFile)) (k : String)
    (v : RichTextMediaFile) :
    (mapSet m k v).map Prod.fst =
      if k ∈ m.map Prod.fst then m.map Prod.fst else m.map Prod.fst ++ [k] := by
  induction m with
  | nil => simp [mapSet]
  | cons p t ih =>
    obtain ⟨k', v'⟩ := p
    by_cases h1 : k' = k
    · subst h1
      simp [mapSet]
    · have h1' : ¬ k = k' := fun he => h1 he.symm
      simp only [mapSet, if_neg h1, List.map_cons, List.mem_cons]
      rw [ih]
      by_cases h2 : k ∈ t.map Prod.fst <;> simp [h1', h2]

theorem vals_mapSet (m : List (String × RichTextMediaFile)) (k : String)
    (v : RichTextMediaFile) (hv : v.downloadCode = k) :
    (∀ p ∈ m, p.2.downloadCode = p.1) → ∀ p ∈ mapSet m k v, p.2.downloadCode = p.1 := by
  induction m with
  | nil =>
    intro _ p hp
    simp only [mapSet, List.mem_singleton] at hp
    simp [hp, hv]
  | cons q t ih =>
    intro hvals p hp
    obtain ⟨k', v'⟩ := q
    by_cases h1 : k' = k
    · subst h1
      simp only [mapSet, if_pos rfl] at hp
      cases hp with
      | head => simp [hv]
      | tail _ h => exact hvals p (List.mem_cons_of_mem _ h)
    · simp only [mapSet, if_neg h1] at hp
      cases hp with
      | head => exact hvals (k', v') (List.mem_cons_self _ _)
      | tail _ h => exact ih (fun r hr => hvals r (List.mem_cons_of_mem _ hr)) p h

theorem mapWF_mapSet (m : List (String × RichTextMediaFile)) (k : String)
    (v : RichTextMediaFile) (hwf : MapWF m) (hv : v.downloadCode = k) :
    MapWF (mapSet m k v) := by
  obtain ⟨hnd, hvals⟩ := hwf
  refine ⟨?_, vals_mapSet m k v hv hvals⟩
  rw [keys_mapSet]
  by_cases h : k ∈ m.map Prod.fst
  · simpa [h] using hnd
  · rw [if_neg h, List.nodup_append]
    refine ⟨hnd, List.nodup_singleton k, ?_⟩
    intro a ha hb
    rw [List.mem_singleton] at hb
    subst hb
    exact h ha

theorem mapWF_dedupFold (files : List RichTextMediaFile)
    (m : List (String × RichTextMediaFile)) (hwf : MapWF m) :
    MapWF (files.foldl (fun m f => mapSet m f.downloadCode f) m) := by
  induction files generalizing m with
  | nil => exact hwf
  | cons f fs ih =>
    exact ih (mapSet m f.downloadCode f) (mapWF_mapSet m f.downloadCode f hwf rfl)

theorem mapGet_dedupFold (files : List RichTextMediaFile)
    (m : List (String × RichTextMediaFile)) (c : String) :
    mapGet (files.foldl (fun m f => mapSet m f.downloadCode f) m) c =
      (findLast? (fun f => f.downloadCode = c) files).or (mapGet m c) := by
  induction files generalizing m with
  | nil => rfl
  | cons f fs ih =>
    simp only [List.foldl_cons, findLast?]
    rw [ih]
    cases hfs : findLast? (fun f => f.downloadCode = c) fs with
    | some b => rfl
    | none =>
      simp only [Option.or, mapGet_mapSet]
      by_cases h : f.downloadCode = c
      · simp [h]
      · have h' : ¬ (f.downloadCode = c) := h
        simp [h']

theorem filter_values_eq_mapGet (m : List (String × RichTextMediaFile)) (c : String)
    (hwf : MapWF m) :
    (m.map Prod.snd).filter (fun f => f.downloadCode = c) = (mapGet m c).toList := by
  induction m with
  | nil => rfl
  | cons p t ih =>
    obtain ⟨k, v⟩ := p
    obtain ⟨hnd, hvals⟩ := hwf
    have hvk : v.downloadCode = k := hvals (k, v) (List.mem_cons_self _ _)
    simp only [List.map_cons, List.nodup_cons] at hnd
    by_cases hkc : k = c
    · subst hkc
      have hfilter : (t.map Prod.snd).filter (fun f => f.downloadCode = k) = [] := by
        apply List.filter_eq_nil_iff.mpr
        intro a ha
        simp only [List.mem_map] at ha
        obtain ⟨⟨k2, v2⟩, hq, rfl⟩ := ha
        have : v2.downloadCode = k2 := hvals (k2, v2) (List.mem_cons_of_mem _ hq)
        rw [this]
        simp only [decide_eq_true_eq]
        intro he
        exact hnd.1 (he ▸ List.mem_map_of_mem Prod.fst hq)
      rw [List.map_cons, List.filter_cons, if_pos (by simp [hvk]), hfilter]
      rw [mapGet, if_pos rfl]
      rfl
    · have hvc : ¬ (v.downloadCode = c) := fun he => hkc (hvk ▸ he)
      rw [List.map_cons, List.filter_cons, if_neg (by simpa using hvc)]
      rw [mapGet, if_neg hkc]
      exact ih ⟨hnd.2, fun q hq => hvals q (List.mem_cons_of_mem _ hq)⟩

/-! ## Claim C3: which duplicate media reference survives deduplication -/

/-- Counterexample to C3: two media references with the same download code
`dc1` arrive as `a.png` then `b.png`; the merged media list keeps the record
of the **last** occurrence (`b.png`), not the first (`a.png`). -/
theorem dedup_keeps_last_counterexample :
    collectMediaFiles entryDupMedia.messages =
      [⟨"dc1", "a.png", "image"⟩, ⟨"dc1", "b.png", "image"⟩] ∧
    mergedMediaFiles entryDupMedia = [⟨"dc1", "b.png", "image"⟩] ∧
    (⟨"dc1", "b.png", "image"⟩ : RichTextMediaFile) ≠ ⟨"dc1", "a.png", "image"⟩ := by
  decide

/-- C3 amended: when a merge window flushes, attached media references are
deduplicated by download code, and for every duplicate code the **last**
occurrence (in arrival order) is the record that survives in the merged
message's media list (placed at the first occurrence's position). -/
theorem dedup_last_occurrence_kept (entry : MergedMessageEntry) (c : String) :
    (mergedMediaFiles entry).filter (fun f => f.downloadCode = c) =
      (findLast? (fun f => f.downloadCode = c) (collectMediaFiles entry.messages)).toList := by
  unfold mergedMediaFiles jsMapDedup
  rw [filter_values_eq_mapGet _ c
    (mapWF_dedupFold (collectMediaFiles entry.messages) [] ⟨List.nodup_nil, by simp⟩)]
  rw [mapGet_dedupFold]
  cases findLast? (fun f => f.downloadCode = c) (collectMediaFiles entry.messages) <;> rfl

/-! ## Claim C4: a no-text event is appended; an all-empty merge is not aborted -/

/-- Counterexample to C4's second half: a merge consisting of one event with
no extractable text still produces a pipeline invocation whose text is the
`"[合并消息]"` placeholder — non-empty, so the pipeline's empty-text guard
passes and processing (including reply dispatch) continues instead of
aborting. -/
theorem empty_merge_text_no_abort_counterexample :
    (runMerge BufState.init [.arrive "acc" dEmptyText 0, .fire "acc:u1:conv2" 0]).pipeline =
      [(dEmptyText, mergedContentOf entryEmptyText)] ∧
    (mergedContentOf entryEmptyText).text = "[合并消息]" ∧
    Effect.dispatchReply ∈
      handleDingTalkMessageOriginal cfgDefault "wh" dEmptyText
        (mergedContentOf entryEmptyText) := by
  decide

/-- C4 amended: an inbound event with no extractable text is still appended to
its open merge entry; and whenever every buffered message's text is empty, the
merged content's text is the `"[合并消息]"` placeholder (so the pipeline step
that requires non-empty text does not abort the merged message). -/
theorem empty_merge_text_placeholder :
    (∀ (s : BufState) (accountId : String) (data : InboundData) (now : Nat)
        (e : MergedMessageEntry),
      isSelfMessage data = false →
      mapGet s.cache (mergeCacheKey accountId data) = some e →
      e.messages.length + 1 < MESSAGE_MERGE_MAX_MESSAGES →
      handleDingTalkMessage s accountId data now =
        ⟨mapSet s.cache (mergeCacheKey accountId data)
            { e with messages := e.messages ++ [mkMergeMsg data now] },
          s.nextTimerId, s.pipeline⟩) ∧
    (∀ entry : MergedMessageEntry,
      (∀ m ∈ entry.messages, m.content.text = "") →
      (mergedContentOf entry).text = "[合并消息]") := by
  constructor
  · intro s accountId data now e hself hget hlt
    exact handleDingTalkMessage_append s accountId data now e hself hget hlt
  · intro entry hempty
    unfold mergedContentOf
    have hfilter : (entry.messages.map (fun m => m.content.text)).filter (fun t => t ≠ "") = [] := by
      apply List.filter_eq_nil_iff.mpr
      intro a ha
      simp only [List.mem_map] at ha
      obtain ⟨m, hm, rfl⟩ := ha
      simp [hempty m hm]
    rw [hfilter]
    rfl

/-- Witness for C4's amended statement: appending the no-text event to an open
entry, and the placeholder text of its all-empty merge. -/
theorem empty_merge_text_placeholder_witness :
    handleDingTalkMessage bufOneEmpty "acc" dEmptyText 100 =
      ⟨mapSet bufOneEmpty.cache (mergeCacheKey "acc" dEmptyText)
          { entryEmptyText with
            messages := entryEmptyText.messages ++ [mkMergeMsg dEmptyText 100] },
        bufOneEmpty.nextTimerId, bufOneEmpty.pipeline⟩ ∧
    (mergedContentOf entryEmptyText).text = "[合并消息]" :=
  ⟨empty_merge_text_placeholder.1 bufOneEmpty "acc" dEmptyText 100 entryEmptyText
      (by decide) (by decide) (by decide),
   empty_merge_text_placeholder.2 entryEmptyText (by decide)⟩

/-! ## Lemmas about the card update throttle -/

theorem throttleCatchUp_none (s : ThrottleState) (t : Nat) (hslot : s.timerSlot = none) :
    throttleCatchUp s t = s := by
  unfold throttleCatchUp
  simp only [hslot, timerDeadline]

theorem throttleCatchUp_scheduled_notDue (s : ThrottleState) (t : Nat) (sch : Sched)
    (hslot : s.timerSlot = some (.scheduled sch)) (ht : t < sch.fireAt) :
    throttleCatchUp s t = s := by
  have hnd : ¬ (sch.fireAt ≤ t) := by omega
  unfold throttleCatchUp
  simp only [hslot, timerDeadline, if_neg hnd]

theorem throttleRequest_schedule (L : Nat) (slot : Option CardTimer)
    (nc : List (Nat × String)) (st : List Nat) (now : Nat) (txt : String) (pid : Nat)
    (h1 : L ≤ now) (h2 : now < L + CARD_UPDATE_MIN_INTERVAL) :
    throttleRequest ⟨L, slot, nc, st⟩ now txt pid =
      ⟨L, some (.scheduled ⟨L + CARD_UPDATE_MIN_INTERVAL, txt, pid⟩), nc, st⟩ := by
  have hlt : ¬ (now - L ≥ CARD_UPDATE_MIN_INTERVAL) := by
    simp only [CARD_UPDATE_MIN_INTERVAL] at h2 ⊢
    omega
  have hfire : now + (CARD_UPDATE_MIN_INTERVAL - (now - L)) = L + CARD_UPDATE_MIN_INTERVAL := by
    simp only [CARD_UPDATE_MIN_INTERVAL] at h2 ⊢
    omega
  unfold throttleRequest
  rw [if_neg hlt, hfire]

theorem throttleRun_coalesce (L : Nat) (nc : List (Nat × String)) (st : List Nat) :
    ∀ (calls : List ThrottleCall) (t0 : String) (p0 : Nat),
      (∀ c ∈ calls, L ≤ c.time ∧ c.time < L + CARD_UPDATE_MIN_INTERVAL) →
      throttleRun ⟨L, some (.scheduled ⟨L + CARD_UPDATE_MIN_INTERVAL, t0, p0⟩), nc, st⟩ calls =
        ⟨L, some (.scheduled ⟨L + CARD_UPDATE_MIN_INTERVAL,
            lastText t0 calls, lastPid p0 calls⟩), nc, st⟩ := by
  intro calls
  induction calls with
  | nil => intro t0 p0 _; rfl
  | cons c cs ih =>
    intro t0 p0 hin
    have hc := hin c (List.mem_cons_self _ _)
    rw [throttleRun,
      throttleCatchUp_scheduled_notDue _ _ ⟨L + CARD_UPDATE_MIN_INTERVAL, t0, p0⟩ rfl hc.2,
      throttleRequest_schedule L _ nc st c.time c.text c.pid hc.1 hc.2]
    exact ih c.text c.pid (fun d hd => hin d (List.mem_cons_of_mem _ hd))

theorem lastPid_mem (cs : List ThrottleCall) :
    ∀ p0, cs ≠ [] → lastPid p0 cs ∈ cs.map ThrottleCall.pid := by
  induction cs with
  | nil => intro p0 h; exact absurd rfl h
  | cons d ds ih =>
    intro p0 _
    cases ds with
    | nil => simp [lastPid]
    | cons e es =>
      have hmem := ih d.pid (by simp)
      have hstep : lastPid p0 (d :: e :: es) = lastPid d.pid (e :: es) := rfl
      rw [hstep, List.map_cons]
      exact List.mem_cons_of_mem _ hmem

/-! ## Claim C2: bursts within the minimum interval coalesce to one call -/

/-- C2: starting from a card whose last network update happened at time `L`,
a burst of throttled update calls all issued strictly within the 500 ms
minimum interval after `L` results in exactly one network update call, fired
at `L + 500`, carrying the text of the last call of the burst. -/
theorem throttle_coalesces_to_single_call (L : Nat) (c : ThrottleCall)
    (cs : List ThrottleCall)
    (hin : ∀ d ∈ c :: cs, L ≤ d.time ∧ d.time < L + CARD_UPDATE_MIN_INTERVAL) :
    (throttleSettle (throttleRun ⟨L, none, [], []⟩ (c :: cs))).netCalls =
      [(L + CARD_UPDATE_MIN_INTERVAL, lastText c.text cs)] := by
  have hc := hin c (List.mem_cons_self _ _)
  rw [throttleRun, throttleCatchUp_none _ _ rfl,
    throttleRequest_schedule L none [] [] c.time c.text c.pid hc.1 hc.2,
    throttleRun_coalesce L [] [] cs c.text c.pid
      (fun d hd => hin d (List.mem_cons_of_mem _ hd))]
  rfl

/-- Witness for C2, matching the spec's example: `update("A")` at t = 0 and
`update("B")` at t = 100 ms after an update at t = 0 produce exactly one
network call, at t = 500 ms, with text `"B"`. -/
theorem throttle_coalesces_to_single_call_witness :
    (throttleSettle (throttleRun ⟨0, none, [], []⟩
        [⟨0, "A", 1⟩, ⟨100, "B", 2⟩])).netCalls = [(500, "B")] :=
  (throttle_coalesces_to_single_call 0 ⟨0, "A", 1⟩ [⟨100, "B", 2⟩] (by decide)).trans
    (by decide)

/-! ## Claim C9: a superseded scheduled update's promise is never settled -/

/-- C9: when a throttled update is in the scheduled state and at least one
newer update call for the same card arrives before the slot fires, the
earlier call's promise is never settled — even after all timers have run to
quiescence its promise id is absent from the settled set, because the newer
call cleared the timer holding its only resolve/reject path. -/
theorem stale_throttle_promise_never_settled (L : Nat) (c : ThrottleCall)
    (cs : List ThrottleCall) (hne : cs ≠ [])
    (hin : ∀ d ∈ c :: cs, L ≤ d.time ∧ d.time < L + CARD_UPDATE_MIN_INTERVAL)
    (hpid : c.pid ∉ cs.map ThrottleCall.pid) :
    c.pid ∉ (throttleSettle (throttleRun ⟨L, none, [], []⟩ (c :: cs))).settled := by
  have hc := hin c (List.mem_cons_self _ _)
  rw [throttleRun, throttleCatchUp_none _ _ rfl,
    throttleRequest_schedule L none [] [] c.time c.text c.pid hc.1 hc.2,
    throttleRun_coalesce L [] [] cs c.text c.pid
      (fun d hd => hin d (List.mem_cons_of_mem _ hd))]
  have hlast : lastPid c.pid cs ∈ cs.map ThrottleCall.pid := lastPid_mem cs c.pid hne
  have hneq : c.pid ≠ lastPid c.pid cs := by
    intro he
    exact hpid (he ▸ hlast)
  simpa [throttleSettle, throttleFire] using hneq

/-- Witness for C9: the t = 0 `"A"` call's promise (id 1) is unsettled after
the t = 100 ms `"B"` call supersedes it and all timers fire. -/
theorem stale_throttle_promise_never_settled_witness :
    1 ∉ (throttleSettle (throttleRun ⟨0, none, [], []⟩
        [⟨0, "A", 1⟩, ⟨100, "B", 2⟩])).settled :=
  stale_throttle_promise_never_settled 0 ⟨0, "A", 1⟩ [⟨100, "B", 2⟩]
    (by decide) (by decide) (by decide)

/-! ## Run lemmas for the merge buffer -/

theorem runMerge_append (s : BufState) (l1 l2 : List MergeEv) :
    runMerge s (l1 ++ l2) = runMerge (runMerge s l1) l2 := by
  induction l1 generalizing s with
  | nil => rfl
  | cons ev evs ih =>
    cases ev with
    | arrive accountId data t => rw [List.cons_append, runMerge, runMerge, ih]
    | fire cacheKey timerId => rw [List.cons_append, runMerge, runMerge, ih]

theorem jsAppend_ne_empty (a b : String) (h : a ≠ "") : a ++ b ≠ "" := by
  intro he
  apply h
  have hd : (a ++ b).data = ("" : String).data := by rw [he]
  rw [String.data_append] at hd
  simp only [String.data] at hd
  have ha : a.data = [] := (List.append_eq_nil.mp (by simpa using hd)).1
  cases a with
  | mk d => simp_all

theorem jsJoin_cons_ne_empty (sep a : String) (rest : List String) (h : a ≠ "") :
    jsJoin sep (a :: rest) ≠ "" := by
  cases rest with
  | nil => exact h
  | cons b t =>
    have : jsJoin sep (a :: b :: t) = a ++ sep ++ jsJoin sep (b :: t) := rfl
    rw [this]
    exact jsAppend_ne_empty _ _ (jsAppend_ne_empty a sep h)

/-- The merged text of an entry whose buffered messages all have non-empty
text: the plain blank-line join of the texts, in buffer order. -/
theorem mergedContent_text_of_nonempty (entry : MergedMessageEntry) (m0 : MergeMsg)
    (ms : List MergeMsg) (hmsgs : entry.messages = m0 :: ms)
    (hall : ∀ m ∈ entry.messages, m.content.text ≠ "") :
    (mergedContentOf entry).text =
      jsJoin "\n\n" (entry.messages.map (fun m => m.content.text)) := by
  have hfilter : (entry.messages.map (fun m => m.content.text)).filter (fun t => t ≠ "") =
      entry.messages.map (fun m => m.content.text) := by
    apply List.filter_eq_self.mpr
    intro a ha
    simp only [List.mem_map] at ha
    obtain ⟨m, hm, rfl⟩ := ha
    simpa using hall m hm
  have hne : jsJoin "\n\n" (entry.messages.map (fun m => m.content.text)) ≠ "" := by
    rw [hmsgs, List.map_cons]
    exact jsJoin_cons_ne_empty _ _ _ (hall m0 (hmsgs ▸ List.mem_cons_self _ _))
  unfold mergedContentOf
  simp only [hfilter]
  rw [jsOr, if_neg hne]

/-- Arrivals for a key whose entry is open accumulate in order while the
message count stays below the maximum. -/
theorem runMerge_accumulate (accountId : String) (key : String) :
    ∀ (msgs : List (InboundData × Nat)) (e : MergedMessageEntry) (n : Nat)
      (pl : List (InboundData × MsgContent)),
      e.messages.length + msgs.length ≤ MESSAGE_MERGE_MAX_MESSAGES - 1 →
      (∀ p ∈ msgs, isSelfMessage p.1 = false ∧ mergeCacheKey accountId p.1 = key) →
      runMerge ⟨[(key, e)], n, pl⟩
          (msgs.map (fun p => MergeEv.arrive accountId p.1 p.2)) =
        ⟨[(key, { e with
            messages := e.messages ++ msgs.map (fun p => mkMergeMsg p.1 p.2) })], n, pl⟩ := by
  intro msgs
  induction msgs with
  | nil =>
    intro e n pl _ _
    show (⟨[(key, e)], n, pl⟩ : BufState) = _
    rw [List.map_nil, List.append_nil]
  | cons p rest ih =>
    intro e n pl hlen hkeys
    obtain ⟨d, t⟩ := p
    have hp := hkeys (d, t) (List.mem_cons_self _ _)
    have hget : mapGet (⟨[(key, e)], n, pl⟩ : BufState).cache (mergeCacheKey accountId d) =
        some e := by
      rw [hp.2]
      simp [mapGet]
    have hlt : e.messages.length + 1 < MESSAGE_MERGE_MAX_MESSAGES := by
      simp only [MESSAGE_MERGE_MAX_MESSAGES, List.length_cons] at hlen ⊢
      omega
    rw [List.map_cons, runMerge,
      handleDingTalkMessage_append _ accountId d t e hp.1 hget hlt, hp.2]
    have hset : mapSet [(key, e)] key { e with messages := e.messages ++ [mkMergeMsg d t] } =
        [(key, { e with messages := e.messages ++ [mkMergeMsg d t] })] := by
      simp [mapSet]
    rw [hset, ih { e with messages := e.messages ++ [mkMergeMsg d t] } n pl
      (by simp only [MESSAGE_MERGE_MAX_MESSAGES, List.length_append, List.length_cons,
            List.length_nil] at hlen ⊢; omega)
      (fun q hq => hkeys q (List.mem_cons_of_mem _ hq))]
    simp [List.append_assoc]

/-- A full window run for at most `MESSAGE_MERGE_MAX_MESSAGES - 1` events:
the window opens at the first arrival, subsequent arrivals accumulate, and
the timer flushes all of them into a single pipeline invocation. -/
theorem runMerge_window (accountId : String) (d0 : InboundData) (t0 : Nat)
    (rest : List (InboundData × Nat))
    (hlen : rest.length ≤ MESSAGE_MERGE_MAX_MESSAGES - 2)
    (hself0 : isSelfMessage d0 = false)
    (hrest : ∀ p ∈ rest, isSelfMessage p.1 = false ∧
        mergeCacheKey accountId p.1 = mergeCacheKey accountId d0) :
    runMerge BufState.init
        (MergeEv.arrive accountId d0 t0 ::
          (rest.map (fun p => MergeEv.arrive accountId p.1 p.2) ++
            [MergeEv.fire (mergeCacheKey accountId d0) 0])) =
      ⟨[], 1, [(d0, mergedContentOf (windowEntry accountId d0 t0
          (mkMergeMsg d0 t0 :: rest.map (fun p => mkMergeMsg p.1 p.2))))]⟩ := by
  rw [runMerge, handleDingTalkMessage_new BufState.init accountId d0 t0 hself0 rfl]
  show runMerge
      ⟨[(mergeCacheKey accountId d0, windowEntry accountId d0 t0 [mkMergeMsg d0 t0])], 1, []⟩
      _ = _
  rw [runMerge_append,
    runMerge_accumulate accountId (mergeCacheKey accountId d0) rest
      (windowEntry accountId d0 t0 [mkMergeMsg d0 t0]) 1 []
      (by simp only [windowEntry, MESSAGE_MERGE_MAX_MESSAGES, List.length_cons,
            List.length_nil] at hlen ⊢; omega)
      hrest,
    runMerge,
    fireMergeTimer_flush _ _
      { windowEntry accountId d0 t0 [mkMergeMsg d0 t0] with
        messages := [mkMergeMsg d0 t0] ++ rest.map (fun p => mkMergeMsg p.1 p.2) }
      (mkMergeMsg d0 t0) 0 (by simp [mapGet, windowEntry]) rfl rfl,
    runMerge]
  simp [mapDelete, windowEntry, mkMergeMsg]

/-- A burst of exactly `MESSAGE_MERGE_MAX_MESSAGES` events for one key: the
last arrival triggers the early flush — the entry is gone and the pipeline is
invoked once, with no timer fire needed. -/
theorem runMerge_burst5 (accountId : String) (d0 : InboundData) (t0 : Nat)
    (ys : List (InboundData × Nat)) (z : InboundData × Nat)
    (hys : ys.length = MESSAGE_MERGE_MAX_MESSAGES - 2)
    (hself0 : isSelfMessage d0 = false)
    (hrest : ∀ p ∈ ys ++ [z], isSelfMessage p.1 = false ∧
        mergeCacheKey accountId p.1 = mergeCacheKey accountId d0) :
    runMerge BufState.init
        (MergeEv.arrive accountId d0 t0 ::
          (ys ++ [z]).map (fun p => MergeEv.arrive accountId p.1 p.2)) =
      ⟨[], 1, [(d0, mergedContentOf (windowEntry accountId d0 t0
          (mkMergeMsg d0 t0 :: (ys ++ [z]).map (fun p => mkMergeMsg p.1 p.2))))]⟩ := by
  have hz := hrest z (by simp)
  rw [runMerge, handleDingTalkMessage_new BufState.init accountId d0 t0 hself0 rfl]
  show runMerge
      ⟨[(mergeCacheKey accountId d0, windowEntry accountId d0 t0 [mkMergeMsg d0 t0])], 1, []⟩
      _ = _
  rw [List.map_append, runMerge_append,
    runMerge_accumulate accountId (mergeCacheKey accountId d0) ys
      (windowEntry accountId d0 t0 [mkMergeMsg d0 t0]) 1 []
      (by simp only [windowEntry, MESSAGE_MERGE_MAX_MESSAGES, List.length_cons,
            List.length_nil] at hys ⊢; omega)
      (fun p hp => hrest p (List.mem_append_left _ hp))]
  rw [List.map_cons, List.map_nil, runMerge,
    handleDingTalkMessage_flush _ accountId z.1 z.2
      { windowEntry accountId d0 t0 [mkMergeMsg d0 t0] with
        messages := [mkMergeMsg d0 t0] ++ ys.map (fun p => mkMergeMsg p.1 p.2) }
      (mkMergeMsg d0 t0) hz.1
      (by rw [hz.2]; simp [mapGet, windowEntry])
      (by simp only [windowEntry, MESSAGE_MERGE_MAX_MESSAGES, List.length_append,
            List.length_cons, List.length_nil, List.length_map] at hys ⊢; omega)
      rfl,
    runMerge]
  rw [hz.2]
  simp [mapSet, mapDelete, windowEntry, mkMergeMsg, List.append_assoc]

/-! ## Claim C1: a window's events are merged into one pipeline invocation -/

/-- C1: N inbound events (1 ≤ N ≤ 5) sharing one merge key, all arriving
while the same window is open (i.e. before its timer fires), produce exactly
one pipeline invocation; it carries the first event's envelope, and its text
is the blank-line join of all N events' extracted texts in arrival order. -/
theorem merge_window_single_invocation (accountId : String) (d0 : InboundData) (t0 : Nat)
    (rest : List (InboundData × Nat))
    (hN : rest.length + 1 ≤ MESSAGE_MERGE_MAX_MESSAGES)
    (hself0 : isSelfMessage d0 = false)
    (hrest : ∀ p ∈ rest, isSelfMessage p.1 = false ∧
        mergeCacheKey accountId p.1 = mergeCacheKey accountId d0)
    (htext0 : (extractMessageContent d0).text ≠ "")
    (htextr : ∀ p ∈ rest, (extractMessageContent p.1).text ≠ "") :
    (runMerge BufState.init
        (MergeEv.arrive accountId d0 t0 ::
          (rest.map (fun p => MergeEv.arrive accountId p.1 p.2) ++
            [MergeEv.fire (mergeCacheKey accountId d0) 0]))).pipeline.map Prod.fst =
      [d0] ∧
    (runMerge BufState.init
        (MergeEv.arrive accountId d0 t0 ::
          (rest.map (fun p => MergeEv.arrive accountId p.1 p.2) ++
            [MergeEv.fire (mergeCacheKey accountId d0) 0]))).pipeline.map
        (fun q => q.2.text) =
      [jsJoin "\n\n" ((extractMessageContent d0).text ::
        rest.map (fun p => (extractMessageContent p.1).text))] := by
  have htextAll : ∀ m ∈ mkMergeMsg d0 t0 :: rest.map (fun p => mkMergeMsg p.1 p.2),
      m.content.text ≠ "" := by
    intro m hm
    rcases List.mem_cons.mp hm with h | h
    · subst h; exact htext0
    · simp only [List.mem_map] at h
      obtain ⟨p, hp, rfl⟩ := h
      exact htextr p hp
  by_cases hc : rest.length ≤ MESSAGE_MERGE_MAX_MESSAGES - 2
  · rw [runMerge_window accountId d0 t0 rest hc hself0 hrest]
    refine ⟨rfl, ?_⟩
    rw [List.map_cons, List.map_nil]
    rw [mergedContent_text_of_nonempty _ (mkMergeMsg d0 t0)
      (rest.map (fun p => mkMergeMsg p.1 p.2)) rfl htextAll]
    simp only [windowEntry, List.map_cons, List.map_map]
    rfl
  · have h4 : rest.length = MESSAGE_MERGE_MAX_MESSAGES - 1 := by
      simp only [MESSAGE_MERGE_MAX_MESSAGES] at hN hc ⊢
      omega
    have hne : rest ≠ [] := by
      intro h
      rw [h] at h4
      simp [MESSAGE_MERGE_MAX_MESSAGES] at h4
    rcases List.eq_nil_or_concat rest with h | ⟨L, b, hLb⟩
    · exact absurd h hne
    rw [List.concat_eq_append] at hLb
    subst hLb
    have hLlen : L.length = MESSAGE_MERGE_MAX_MESSAGES - 2 := by
      simp only [List.length_append, List.length_cons, List.length_nil,
        MESSAGE_MERGE_MAX_MESSAGES] at h4 ⊢
      omega
    rw [show MergeEv.arrive accountId d0 t0 ::
        ((L ++ [b]).map (fun p => MergeEv.arrive accountId p.1 p.2) ++
          [MergeEv.fire (mergeCacheKey accountId d0) 0]) =
      (MergeEv.arrive accountId d0 t0 ::
        (L ++ [b]).map (fun p => MergeEv.arrive accountId p.1 p.2)) ++
        [MergeEv.fire (mergeCacheKey accountId d0) 0] from rfl]
    rw [runMerge_append, runMerge_burst5 accountId d0 t0 L b hLlen hself0 hrest, runMerge]
    have hno := fireMergeTimer_noop
      ⟨[], 1, [(d0, mergedContentOf (windowEntry accountId d0 t0
          (mkMergeMsg d0 t0 :: (L ++ [b]).map (fun p => mkMergeMsg p.1 p.2))))]⟩
      (mergeCacheKey accountId d0) 0 rfl
    rw [hno, runMerge]
    refine ⟨rfl, ?_⟩
    rw [List.map_cons, List.map_nil]
    rw [mergedContent_text_of_nonempty _ (mkMergeMsg d0 t0)
      ((L ++ [b]).map (fun p => mkMergeMsg p.1 p.2)) rfl htextAll]
    simp only [windowEntry, List.map_cons, List.map_map]
    rfl

/-- Witness for C1, matching the spec's example: "part one" then "part two"
inside one window merge into a single invocation with text
`"part one\n\npart two"`. -/
theorem merge_window_single_invocation_witness :
    (runMerge BufState.init
        (MergeEv.arrive "acc" dPartOne 0 ::
          ([(dPartTwo, 300)].map (fun p => MergeEv.arrive "acc" p.1 p.2) ++
            [MergeEv.fire (mergeCacheKey "acc" dPartOne) 0]))).pipeline.map Prod.fst =
      [dPartOne] ∧
    (runMerge BufState.init
        (MergeEv.arrive "acc" dPartOne 0 ::
          ([(dPartTwo, 300)].map (fun p => MergeEv.arrive "acc" p.1 p.2) ++
            [MergeEv.fire (mergeCacheKey "acc" dPartOne) 0]))).pipeline.map
        (fun q => q.2.text) =
      ["part one\n\npart two"] :=
  ⟨(merge_window_single_invocation "acc" dPartOne 0 [(dPartTwo, 300)]
      (by decide) (by decide) (by decide) (by decide) (by decide)).1,
   (merge_window_single_invocation "acc" dPartOne 0 [(dPartTwo, 300)]
      (by decide) (by decide) (by decide) (by decide) (by decide)).2.trans (by decide)⟩

/-! ## Claim C7: reaching the maximum count flushes immediately -/

/-- C7: when the 5th event for a key arrives before the window timer fires,
the buffer flushes immediately: afterwards the cache is empty (the entry is
removed), the pipeline has been invoked exactly once with all five buffered
messages, and the window timer subsequently firing is a no-op (the timer was
cancelled). -/
theorem merge_flush_at_max_messages (accountId : String) (d0 : InboundData) (t0 : Nat)
    (rest : List (InboundData × Nat))
    (hlen : rest.length + 1 = MESSAGE_MERGE_MAX_MESSAGES)
    (hself0 : isSelfMessage d0 = false)
    (hrest : ∀ p ∈ rest, isSelfMessage p.1 = false ∧
        mergeCacheKey accountId p.1 = mergeCacheKey accountId d0) :
    runMerge BufState.init
        (MergeEv.arrive accountId d0 t0 ::
          rest.map (fun p => MergeEv.arrive accountId p.1 p.2)) =
      ⟨[], 1, [(d0, mergedContentOf (windowEntry accountId d0 t0
          (mkMergeMsg d0 t0 :: rest.map (fun p => mkMergeMsg p.1 p.2))))]⟩ ∧
    fireMergeTimer
        (runMerge BufState.init
          (MergeEv.arrive accountId d0 t0 ::
            rest.map (fun p => MergeEv.arrive accountId p.1 p.2)))
        (mergeCacheKey accountId d0) 0 =
      runMerge BufState.init
        (MergeEv.arrive accountId d0 t0 ::
          rest.map (fun p => MergeEv.arrive accountId p.1 p.2)) := by
  have hne : rest ≠ [] := by
    intro h
    rw [h] at hlen
    simp [MESSAGE_MERGE_MAX_MESSAGES] at hlen
  rcases List.eq_nil_or_concat rest with h | ⟨L, b, hLb⟩
  · exact absurd h hne
  rw [List.concat_eq_append] at hLb
  subst hLb
  have hLlen : L.length = MESSAGE_MERGE_MAX_MESSAGES - 2 := by
    simp only [List.length_append, List.length_cons, List.length_nil,
      MESSAGE_MERGE_MAX_MESSAGES] at hlen ⊢
    omega
  have hmain := runMerge_burst5 accountId d0 t0 L b hLlen hself0 hrest
  refine ⟨hmain, ?_⟩
  rw [hmain]
  exact fireMergeTimer_noop
    ⟨[], 1, [(d0, mergedContentOf (windowEntry accountId d0 t0
        (mkMergeMsg d0 t0 :: (L ++ [b]).map (fun p => mkMergeMsg p.1 p.2))))]⟩
    (mergeCacheKey accountId d0) 0 rfl

/-- Witness for C7: five rapid events from one sender flush immediately into
one invocation, leave no cache entry, and the later timer fire is a no-op. -/
theorem merge_flush_at_max_messages_witness :
    runMerge BufState.init
        (MergeEv.arrive "acc" dPartOne 0 ::
          [(dPartTwo, 100), (dPartTwo, 200), (dPartTwo, 300), (dPartTwo, 400)].map
            (fun p => MergeEv.arrive "acc" p.1 p.2)) =
      ⟨[], 1, [(dPartOne, mergedContentOf (windowEntry "acc" dPartOne 0
          (mkMergeMsg dPartOne 0 ::
            [(dPartTwo, 100), (dPartTwo, 200), (dPartTwo, 300), (dPartTwo, 400)].map
              (fun p => mkMergeMsg p.1 p.2))))]⟩ ∧
    fireMergeTimer
        (runMerge BufState.init
          (MergeEv.arrive "acc" dPartOne 0 ::
            [(dPartTwo, 100), (dPartTwo, 200), (dPartTwo, 300), (dPartTwo, 400)].map
              (fun p => MergeEv.arrive "acc" p.1 p.2)))
        (mergeCacheKey "acc" dPartOne) 0 =
      runMerge BufState.init
        (MergeEv.arrive "acc" dPartOne 0 ::
          [(dPartTwo, 100), (dPartTwo, 200), (dPartTwo, 300), (dPartTwo, 400)].map
            (fun p => MergeEv.arrive "acc" p.1 p.2)) :=
  merge_flush_at_max_messages "acc" dPartOne 0
    [(dPartTwo, 100), (dPartTwo, 200), (dPartTwo, 300), (dPartTwo, 400)]
    (by decide) (by decide) (by decide)

end DingTalk
